import Mathlib

/-!
Verification of the pokemon_wiki episode crawler.

The HTML documents handled by BeautifulSoup are embedded as a tree of
element nodes (tag name, optional id attribute, children) and text nodes.
The extraction functions of src/crawler.py (and the near-identical
src/1997/crawler.py variant) are translated over this tree; the batching
driver of main is translated over lists of URLs. External collaborators
(the HTTP fetch, the urllib percent-decoding, the OpenCC text conversion)
appear as explicit function parameters or as an abstract fetch outcome.
-/

/-- A parsed HTML node: either a tag element with a name, an optional
id attribute and an ordered list of children, or a text node. -/
inductive Node where
  | elem (name : String) (id : Option String) (children : List Node)
  | text (s : String)

/-- Tag name of a node (none for text nodes, as in BeautifulSoup). -/
def nodeName : Node → Option String
  | Node.elem nm _ _ => some nm
  | Node.text _ => none

/-- Whether a node is a tag element (a BeautifulSoup Tag rather than a
NavigableString). -/
def isTag : Node → Bool
  | Node.elem _ _ _ => true
  | Node.text _ => false

/-- Children of a node (text nodes have none). -/
def childrenOf : Node → List Node
  | Node.elem _ _ cs => cs
  | Node.text _ => []

mutual
/-- BeautifulSoup tag.text: concatenation of all descendant strings in
document order. -/
def nodeText : Node → String
  | Node.text s => s
  | Node.elem _ _ cs => nodeTextList cs

def nodeTextList : List Node → String
  | [] => ""
  | n :: ns => nodeText n ++ nodeTextList ns
end

mutual
/-- All descendant strings of a node, in document order (tag.strings). -/
def nodeStrings : Node → List String
  | Node.text s => [s]
  | Node.elem _ _ cs => nodeStringsList cs

def nodeStringsList : List Node → List String
  | [] => []
  | n :: ns => nodeStrings n ++ nodeStringsList ns
end

/-- Python str.strip over the character list: drop whitespace from both
ends. -/
def stripChars (l : List Char) : List Char :=
  ((l.dropWhile Char.isWhitespace).reverse.dropWhile Char.isWhitespace).reverse

/-- Python str.strip. -/
def pyStrip (s : String) : String := String.mk (stripChars s.data)

/-- BeautifulSoup tag.get_text with strip=True: strip every descendant
string, drop the ones that become empty, and concatenate the rest. -/
def getTextStrip (n : Node) : String :=
  String.join (((nodeStrings n).map pyStrip).filter (fun t => t ≠ ""))

mutual
/-- Path (list of child indices) to the first span element carrying the
given id attribute, in document order (soup.find with name span and the
id keyword). -/
def findSpanPath (anchorId : String) : Node → Option (List Nat)
  | Node.text _ => none
  | Node.elem nm i cs =>
    if nm = "span" ∧ i = some anchorId then some []
    else findSpanPathList anchorId cs 0

def findSpanPathList (anchorId : String) : List Node → Nat → Option (List Nat)
  | [], _ => none
  | n :: ns, k =>
    match findSpanPath anchorId n with
    | some p => some (k :: p)
    | none => findSpanPathList anchorId ns (k + 1)
end

/-- Node at a child-index path below root. -/
def nodeAt : Node → List Nat → Option Node
  | n, [] => some n
  | Node.text _, _ :: _ => none
  | Node.elem _ _ cs, k :: p =>
    match cs.get? k with
    | some c => nodeAt c p
    | none => none

/-- Whether the node at path q below root is an h2 element. -/
def isH2At (root : Node) (q : List Nat) : Bool :=
  match nodeAt root q with
  | some (Node.elem nm _ _) => nm = "h2"
  | _ => false

/-- BeautifulSoup find_parent with name h2: the nearest proper ancestor of
the node at path p that is an h2 element, returned as its path (the
deepest ancestor is tried first). -/
def nearestH2Path (root : Node) (p : List Nat) : Option (List Nat) :=
  (((List.range p.length).reverse).map (fun k => p.take k)).find? (fun q => isH2At root q)

/-- The siblings that follow the node at path q, in document order. -/
def siblingsAfter (root : Node) (q : List Nat) : List Node :=
  match q.reverse with
  | [] => []
  | j :: rq =>
    match nodeAt root rq.reverse with
    | some (Node.elem _ _ cs) => cs.drop (j + 1)
    | _ => []

/-- The tag elements of a sibling list: find_next_sibling and its variants
only ever return tags, skipping bare strings. -/
def elemSiblings (ns : List Node) : List Node := ns.filter isTag

/-- Python sep.join. -/
def joinSep (sep : String) : List String → String
  | [] => ""
  | [a] => a
  | a :: b :: l => a ++ sep ++ joinSep sep (b :: l)

/-- The id of the span anchoring the summary heading (摘要). -/
def summaryAnchorId : String := ".E6.91.98.E8.A6.81"

/-- The id of the span anchoring the main-events heading (主要事件). -/
def eventsAnchorId : String := ".E4.B8.BB.E8.A6.81.E4.BA.8B.E4.BB.B6"

/-- Python re.search for the pattern of a literal 第, one or more digits
and a literal 集: scan start positions left to right; at a 第, the greedy
digit run must be followed directly by 集 (no shorter run can be, since 集
is not a digit). -/
def findEpisodeMarker : List Char → Option String
  | [] => none
  | c :: cs =>
    if c = '第' then
      let ds := cs.takeWhile Char.isDigit
      let rest := cs.drop ds.length
      if ds ≠ [] ∧ rest.head? = some '集' then
        some (String.mk ('第' :: (ds ++ ['集'])))
      else findEpisodeMarker cs
    else findEpisodeMarker cs

/-- Source function parse_episode_text: decode the URL and search it for a
第<digits>集 marker. The percent-decoding urllib.parse.unquote is an
external library routine, so it is an explicit parameter here. -/
def parse_episode_text (unquote : String → String) (url : String) : Option String :=
  findEpisodeMarker (unquote url).data

mutual
/-- BeautifulSoup soup.find with name p: the first p element of the
document in document order, if any. -/
def findFirstP : Node → Option Node
  | Node.text _ => none
  | Node.elem nm i cs =>
    if nm = "p" then some (Node.elem nm i cs) else findFirstPList cs

def findFirstPList : List Node → Option Node
  | [] => none
  | n :: ns =>
    match findFirstP n with
    | some r => some r
    | none => findFirstPList ns
end

/-- Source function get_first_paragraph_text: stripped text of the first
paragraph, or a placeholder string when the document has no paragraph. -/
def get_first_paragraph_text (root : Node) : String :=
  match findFirstP root with
  | some pNode => pyStrip (nodeText pNode)
  | none => "No first paragraph found"

/-- The sibling walk of get_summary_section: starting after the heading at
path q, iterate the following tag siblings while they are not h2, collect
the stripped text of every p among them, keeping only the non-empty
ones. -/
def summaryWalkTexts (root : Node) (q : List Nat) : List String :=
  ((((elemSiblings (siblingsAfter root q)).takeWhile
        (fun n => nodeName n ≠ some "h2")).filter
      (fun n => nodeName n = some "p")).map
    (fun n => pyStrip (nodeText n))).filter (fun t => t ≠ "")

/-- Source function get_summary_section: find the summary anchor span,
ascend to its nearest h2 ancestor, collect the non-empty stripped
paragraph texts up to the next h2 sibling, and join them with newlines;
none when the anchor, the heading, or all collected text is missing. -/
def get_summary_section (root : Node) : Option String :=
  match findSpanPath summaryAnchorId root with
  | none => none
  | some p =>
    match nearestH2Path root p with
    | none => none
    | some q =>
      let l := summaryWalkTexts root q
      if l.isEmpty then none else some (joinSep "\n" l)

/-- BeautifulSoup find_all with name li and recursive=False, followed by
get_text with strip=True: the stripped text of each direct li child of the
list, keeping only the non-empty ones. -/
def directLiTexts (ul : Node) : List String :=
  (((childrenOf ul).filter (fun n => nodeName n = some "li")).map
    getTextStrip).filter (fun t => t ≠ "")

/-- Source function get_main_events: find the main-events anchor span,
ascend to its nearest h2 ancestor, take the first following ul sibling
(find_next_sibling with name ul), and collect the non-empty stripped texts
of its direct li children; none when the anchor, the heading, the list, or
all collected text is missing. -/
def get_main_events (root : Node) : Option (List String) :=
  match findSpanPath eventsAnchorId root with
  | none => none
  | some p =>
    match nearestH2Path root p with
    | none => none
    | some q =>
      match (elemSiblings (siblingsAfter root q)).find?
          (fun n => nodeName n = some "ul") with
      | none => none
      | some ul =>
        let evs := directLiTexts ul
        if evs.isEmpty then none else some evs

/-- The episode label field of the assembled block: a Python f-string
renders the value None as the literal text None. -/
def labelText (unquote : String → String) (url : String) : String :=
  match parse_episode_text unquote url with
  | some s => s
  | none => "None"

/-- The summary field of the assembled block: the extracted summary when it
is truthy, else the placeholder (Python truthiness: None and the empty
string are both replaced). -/
def summaryField (root : Node) : String :=
  match get_summary_section root with
  | none => "No summary found."
  | some s => if s = "" then "No summary found." else s

/-- The events field of the assembled block: a bullet-prefixed join when
the extracted list is truthy, else the placeholder. -/
def eventsField (root : Node) : String :=
  match get_main_events root with
  | none => "No main events found."
  | some evs =>
    if evs = [] then "No main events found."
    else "\n• " ++ joinSep "\n• " evs

/-- The six newline-separated fields of the f-string assembled by
get_episode_content. -/
def episodeFields (unquote : String → String) (url : String) (root : Node) : List String :=
  [labelText unquote url, get_first_paragraph_text root, "摘要",
   summaryField root, "主要事件：", eventsField root]

/-- The text block assembled by get_episode_content for one episode page
(before the simplified-to-traditional conversion applied by the
src/crawler.py variant). -/
def assembleBlock (unquote : String → String) (url : String) (root : Node) : String :=
  joinSep "\n" (episodeFields unquote url root)

/-- Source function get_episode_content: fetching and parsing a URL either
yields a parsed document or raises; the whole body is wrapped in a
try/except, so a failure becomes the string Error: <reason> and a success
becomes the assembled block (converted by the external OpenCC step conv in
the src/crawler.py variant; conv is the identity in the
src/1997/crawler.py variant). -/
def getEpisodeContent (conv : String → String) (unquote : String → String)
    (fetch : String → Except String Node) (url : String) : String :=
  match fetch url with
  | Except.ok doc => conv (assembleBlock unquote url doc)
  | Except.error e => "Error: " ++ e

/-- The driver loop over a URL list: one content record per URL, in order
(process_url_batch in src/crawler.py, the accumulation loop of main in
src/1997/crawler.py). -/
def processUrls (conv : String → String) (unquote : String → String)
    (fetch : String → Except String Node) : List String → List String
  | [] => []
  | u :: us => getEpisodeContent conv unquote fetch u :: processUrls conv unquote fetch us

/-- Constant BATCH_SIZE in main. -/
def BATCH_SIZE : Nat := 20

/-- Python range of 0 to total with step 20: the multiples of 20 below
total. -/
def rangeStep20 (total : Nat) : List Nat :=
  (List.range ((total + 19) / 20)).map (fun i => 20 * i)

/-- Python slice l[a:b] for 0 ≤ a ≤ b. -/
def pySlice (l : List α) (a b : Nat) : List α := (l.drop a).take (b - a)

/-- The batches of main: for each batch_start produced by the ranged loop,
the slice of urls from batch_start to min (batch_start + 20) total. -/
def batchList (urls : List String) : List (List String) :=
  (rangeStep20 urls.length).map
    (fun s => pySlice urls s (min (s + BATCH_SIZE) urls.length))

/-- The output file name of a batch: the f-string
<season>_episodes_part<batch_start // 20 + 1>.pdf. -/
def batchFileName (season : String) (batchStart : Nat) : String :=
  season ++ "_episodes_part" ++ toString (batchStart / 20 + 1) ++ ".pdf"

/-- One output PDF file per batch, in batch order. -/
def batchFiles (season : String) (urls : List String) : List String :=
  (rangeStep20 urls.length).map (batchFileName season)

/-- Observable filesystem effects of one run of main: directories created,
PDF files written, and the reported error message if any. -/
structure RunEffects where
  createdDirs : List String
  outputFiles : List String
  errorMsg : Option String

/-- The control flow of main over the filesystem preconditions: a missing
season directory or a missing urls.txt is reported and the function
returns before os.makedirs runs and before any batch is rendered;
otherwise the pdf directory is created and one file per batch is
written. -/
def mainRun (season : String) (seasonDirExists : Bool) (urlsFileExists : Bool)
    (urls : List String) : RunEffects :=
  if seasonDirExists = false then
    { createdDirs := [], outputFiles := [],
      errorMsg := some ("Error: Season directory " ++ season ++ " not found") }
  else if urlsFileExists = false then
    { createdDirs := [], outputFiles := [],
      errorMsg := some ("Error: URLs file not found in " ++ season ++ " directory") }
  else
    { createdDirs := [season ++ "/pdf"], outputFiles := batchFiles season urls,
      errorMsg := none }

/-- Claimed summary collection, following the spec wording: from the
heading, walk its following siblings, stop exclusively at the first
heading-level sibling, collect the trimmed text of every paragraph-type
sibling, and discard the empty ones. -/
def claimSummaryTexts (root : Node) (q : List Nat) : List String :=
  ((elemSiblings (siblingsAfter root q)).takeWhile
      (fun n => ¬ nodeName n = some "h2")).filterMap
    (fun n => if nodeName n = some "p" then
        (if pyStrip (nodeText n) = "" then none else some (pyStrip (nodeText n)))
      else none)

/-- Claimed first list element after the amendment: the first ul among all
of the siblings following the heading, regardless of intervening
headings. -/
def claimFirstListSibling (root : Node) (q : List Nat) : Option Node :=
  ((elemSiblings (siblingsAfter root q)).filter (fun n => nodeName n = some "ul")).head?

/-- Claimed item collection: the text of each direct list-item child,
trimmed, with empty items discarded. -/
def claimItemTexts (ul : Node) : List String :=
  (childrenOf ul).filterMap (fun n =>
    if nodeName n = some "li" then
      (if getTextStrip n = "" then none else some (getTextStrip n))
    else none)

/-- Direct li children of a list element. -/
def directLis (ul : Node) : List Node :=
  (childrenOf ul).filter (fun n => nodeName n = some "li")

mutual
/-- Whether the subtree of a node contains a p element. -/
def hasPElem : Node → Bool
  | Node.text _ => false
  | Node.elem nm _ cs => nm = "p" || hasPElemList cs

def hasPElemList : List Node → Bool
  | [] => false
  | n :: ns => hasPElem n || hasPElemList ns
end

/-- Sample document for the summary walk: summary heading, a paragraph, a
whitespace-only paragraph, a closing heading and a paragraph beyond it. -/
def wdocC1 : Node := Node.elem "div" none [
  Node.elem "h2" none [Node.elem "span" (some summaryAnchorId) []],
  Node.elem "p" none [Node.text " hello "],
  Node.elem "p" none [Node.text "   "],
  Node.elem "h2" none [],
  Node.elem "p" none [Node.text "after"]]

/-- Document whose main-events heading is followed by an intervening h2
before the first list: the claimed behaviour would be not-found, the code
still picks up the later list. -/
def cexDocC2 : Node := Node.elem "div" none [
  Node.elem "h2" none [Node.elem "span" (some eventsAnchorId) []],
  Node.elem "h2" none [],
  Node.elem "ul" none [Node.elem "li" none [Node.text "x"]]]

/-- Sample document with two list siblings after the main-events heading;
the first one is used. -/
def wdocC2 : Node := Node.elem "div" none [
  Node.elem "h2" none [Node.elem "span" (some eventsAnchorId) []],
  Node.elem "p" none [Node.text "t"],
  Node.elem "ul" none [Node.elem "li" none [Node.text "e1"]],
  Node.elem "ul" none [Node.elem "li" none [Node.text "e2"]]]

/-- A list item whose own text is a, with a nested list item whose text is
b. -/
def cexLiC3 : Node := Node.elem "li" none [Node.text " a ",
  Node.elem "ul" none [Node.elem "li" none [Node.text "b"]]]

/-- Document whose main-events list holds one direct item containing a
nested list. -/
def cexDocC3 : Node := Node.elem "div" none [
  Node.elem "h2" none [Node.elem "span" (some eventsAnchorId) []],
  Node.elem "ul" none [cexLiC3]]

/-- Sample main-events list with two direct items, the first containing a
nested list. -/
def wulC3 : Node := Node.elem "ul" none [
  Node.elem "li" none [Node.text "x",
    Node.elem "ul" none [Node.elem "li" none [Node.text "y"]]],
  Node.elem "li" none [Node.text "z"]]

/-- Document whose main-events heading is immediately followed by the
sample list. -/
def wdocC3 : Node := Node.elem "div" none [
  Node.elem "h2" none [Node.elem "span" (some eventsAnchorId) []],
  wulC3]

/-- Document whose summary section holds only a whitespace-only paragraph
and which has no main-events section. -/
def wdocC4 : Node := Node.elem "div" none [
  Node.elem "h2" none [Node.elem "span" (some summaryAnchorId) []],
  Node.elem "p" none [Node.text "   "]]

/-- Document without either anchor span. -/
def wdocC5 : Node := Node.elem "div" none [Node.elem "p" none [Node.text "x"]]

/-- A 45-URL input list, which partitions into batches of 20, 20 and 5. -/
def wurlsC6 : List String := List.replicate 45 "u"

/-- A fetch outcome map where the second URL fails and the others parse to
a one-paragraph document. -/
def wfetchC7 : String → Except String Node := fun u =>
  if u = "u2" then Except.error "boom"
  else Except.ok (Node.elem "div" none [Node.elem "p" none [Node.text "hi"]])

/-- Document used for the unmatched-URL label: one plain paragraph. -/
def wdocC9 : Node := Node.elem "div" none [Node.elem "p" none [Node.text "intro"]]

/-- Document with no paragraph element at all. -/
def wdocC10 : Node := Node.elem "div" none [Node.elem "span" none [Node.text "x"]]

theorem summaryCollect_eq (l : List Node) :
    (((l.filter (fun n => nodeName n = some "p")).map
        (fun n => pyStrip (nodeText n))).filter (fun t => t ≠ "")) =
      l.filterMap (fun n => if nodeName n = some "p" then
        (if pyStrip (nodeText n) = "" then none else some (pyStrip (nodeText n)))
      else none) := by
  induction l with
  | nil => rfl
  | cons a l ih =>
    by_cases hp : nodeName a = some "p"
    · by_cases hf : pyStrip (nodeText a) = "" <;>
        simpa [List.filter_cons, hp, hf] using ih
    · simpa [List.filter_cons, hp] using ih

theorem summaryWalk_eq_claim (root : Node) (q : List Nat) :
    summaryWalkTexts root q = claimSummaryTexts root q := by
  unfold summaryWalkTexts claimSummaryTexts
  exact summaryCollect_eq _

theorem find?_eq_filter_head (p : Node → Bool) (l : List Node) :
    l.find? p = (l.filter p).head? := by
  induction l with
  | nil => rfl
  | cons a l ih =>
    by_cases h : p a
    · rw [List.find?_cons_of_pos _ h, List.filter_cons, if_pos h, List.head?_cons]
    · rw [List.find?_cons_of_neg _ h, List.filter_cons, if_neg h, ih]

theorem itemCollect_eq (l : List Node) :
    ((l.filter (fun n => nodeName n = some "li")).map getTextStrip).filter
        (fun t => t ≠ "") =
      l.filterMap (fun n =>
        if nodeName n = some "li" then
          (if getTextStrip n = "" then none else some (getTextStrip n))
        else none) := by
  induction l with
  | nil => rfl
  | cons a l ih =>
    by_cases hp : nodeName a = some "li"
    · by_cases hf : getTextStrip a = "" <;>
        simpa [List.filter_cons, hp, hf] using ih
    · simpa [List.filter_cons, hp] using ih

mutual
theorem hasP_false_findP_none : ∀ n : Node, hasPElem n = false → findFirstP n = none
  | Node.text _, _ => rfl
  | Node.elem nm i cs, h => by
    have h' := h
    unfold hasPElem at h'
    rw [Bool.or_eq_false_iff] at h'
    unfold findFirstP
    rw [if_neg (by simpa using h'.1)]
    exact hasPList_false_findPList_none cs h'.2

theorem hasPList_false_findPList_none :
    ∀ l : List Node, hasPElemList l = false → findFirstPList l = none
  | [], _ => rfl
  | n :: ns, h => by
    have h' := h
    unfold hasPElemList at h'
    rw [Bool.or_eq_false_iff] at h'
    unfold findFirstPList
    rw [hasP_false_findP_none n h'.1]
    exact hasPList_false_findPList_none ns h'.2
end

theorem batch_join_aux : ∀ (m : Nat) (l : List String), m = (l.length + 19) / 20 →
    ((List.range m).map (fun i =>
        pySlice l (20 * i) (min (20 * i + 20) l.length))).flatten = l := by
  intro m
  induction m with
  | zero =>
    intro l h
    have hl : l.length = 0 := by omega
    rw [List.length_eq_zero.mp hl]
    rfl
  | succ m ih =>
    intro l h
    rw [List.range_succ_eq_map, List.map_cons, List.map_map, List.flatten_cons]
    have h0 : pySlice l (20 * 0) (min (20 * 0 + 20) l.length) = l.take 20 := by
      unfold pySlice
      simp only [Nat.mul_zero, List.drop_zero, Nat.zero_add, Nat.sub_zero]
      rcases le_total 20 l.length with hle | hle
      · rw [min_eq_left hle]
      · rw [min_eq_right hle, List.take_length, List.take_of_length_le hle]
    have hcomp : ∀ i ∈ List.range m,
        ((fun i => pySlice l (20 * i) (min (20 * i + 20) l.length)) ∘ Nat.succ) i =
          pySlice (l.drop 20) (20 * i) (min (20 * i + 20) (l.drop 20).length) := by
      intro i _
      simp only [Function.comp_apply]
      unfold pySlice
      rw [List.drop_drop, List.length_drop]
      have e1 : 20 + 20 * i = 20 * Nat.succ i := by omega
      rw [e1]
      congr 1
      omega
    rw [List.map_congr_left hcomp, h0, ih (l.drop 20) (by rw [List.length_drop]; omega)]
    exact List.take_append_drop 20 l

theorem processUrls_eq_map (conv unquote : String → String)
    (fetch : String → Except String Node) (urls : List String) :
    processUrls conv unquote fetch urls =
      urls.map (getEpisodeContent conv unquote fetch) := by
  induction urls with
  | nil => rfl
  | cons u us ih => simp [processUrls, ih]

/-- Claim C1: when the summary anchor is found and has an enclosing h2
heading, the summary extraction walks that heading's following siblings,
collects the trimmed text of every paragraph sibling, stops exclusively at
the first heading-level sibling, discards the paragraphs whose trimmed
text is empty, and returns the remaining texts in document order (joined
with newlines), or none when no text remains. -/
theorem summary_walk_matches_claim (root : Node) (p q : List Nat)
    (h1 : findSpanPath summaryAnchorId root = some p)
    (h2 : nearestH2Path root p = some q) :
    get_summary_section root =
      if claimSummaryTexts root q = [] then none
      else some (joinSep "\n" (claimSummaryTexts root q)) := by
  simp only [get_summary_section, h1, h2, summaryWalk_eq_claim]
  rcases eq_or_ne (claimSummaryTexts root q) [] with h | h <;>
    simp [h]

/-- Witness for C1 on a concrete document: the non-empty paragraph before
the next heading is returned, the whitespace-only one and the paragraph
beyond the heading are not. -/
theorem summary_walk_matches_claim_witness : get_summary_section wdocC1 = some "hello" := by
  have h := summary_walk_matches_claim wdocC1 [0, 0] [0] (by decide) (by decide)
  rw [h]
  decide

/-- Counterexample to C2 as stated: in this document no list element
precedes the heading sibling that follows the main-events heading (second
conjunct), yet the extraction does not return none — it returns the list
that appears after that next heading. -/
theorem main_events_crosses_heading_cex :
    get_main_events cexDocC2 = some ["x"] ∧
    ((elemSiblings (siblingsAfter cexDocC2 [0])).takeWhile
        (fun n => ¬ nodeName n = some "h2")).any
      (fun n => nodeName n = some "ul") = false := by decide

/-- Claim C2 as amended: when the main-events anchor is found and has an
enclosing h2 heading, the extraction uses the first list element among all
of the siblings following that heading — even past an intervening heading —
returning none only when no list sibling follows at all; otherwise it
collects the trimmed texts of the direct list-item children, discarding
empty items, in order, and yields none when every item is discarded. -/
theorem main_events_first_ul_overall (root : Node) (p q : List Nat)
    (h1 : findSpanPath eventsAnchorId root = some p)
    (h2 : nearestH2Path root p = some q) :
    get_main_events root =
      match claimFirstListSibling root q with
      | none => none
      | some ul => if claimItemTexts ul = [] then none
          else some (claimItemTexts ul) := by
  simp only [get_main_events, h1, h2, find?_eq_filter_head]
  rcases h : ((elemSiblings (siblingsAfter root q)).filter
      (fun n => nodeName n = some "ul")).head? with _ | ul
  · simp [claimFirstListSibling, h]
  · have e : directLiTexts ul = claimItemTexts ul := by
      unfold directLiTexts claimItemTexts
      exact itemCollect_eq _
    simp only [claimFirstListSibling, h]
    rcases eq_or_ne (claimItemTexts ul) [] with he | he <;> simp [e, he]

/-- Witness for the amended C2 on a concrete document: of the two list
siblings the first is used. -/
theorem main_events_first_ul_overall_witness : get_main_events wdocC2 = some ["e1"] := by
  have h := main_events_first_ul_overall wdocC2 [0, 0] [0] (by decide) (by decide)
  rw [h]
  decide

/-- Counterexample to C3 as stated: the main-events list has one direct
item whose own text is a, with a nested list item of text b; the returned
string is the concatenation, so text originating from a nested-list item
does appear in the result. -/
theorem main_events_nested_text_cex :
    get_main_events cexDocC3 =
      some ["a" ++ nodeText (Node.elem "li" none [Node.text "b"])] := by decide

/-- Claim C3 as amended: when the main-events heading is immediately
followed by a list element with at least one direct list-item child, each
with non-empty trimmed text, the extraction returns exactly one trimmed
string per direct item, in document order; nested lists contribute no
separate entries (their text is folded into the containing item). -/
theorem main_events_direct_item_count (root : Node) (p q : List Nat) (ul : Node)
    (h1 : findSpanPath eventsAnchorId root = some p)
    (h2 : nearestH2Path root p = some q)
    (h3 : (elemSiblings (siblingsAfter root q)).head? = some ul)
    (h4 : nodeName ul = some "ul")
    (h5 : directLis ul ≠ [])
    (h6 : ∀ li ∈ directLis ul, getTextStrip li ≠ "") :
    get_main_events root = some ((directLis ul).map getTextStrip) ∧
    ((directLis ul).map getTextStrip).length = (directLis ul).length := by
  have hfind : (elemSiblings (siblingsAfter root q)).find?
      (fun n => nodeName n = some "ul") = some ul := by
    rcases l : elemSiblings (siblingsAfter root q) with _ | ⟨a, rest⟩
    · simp [l] at h3
    · rw [l] at h3
      simp only [List.head?_cons, Option.some.injEq] at h3
      subst h3
      simp [List.find?_cons, h4]
  have htexts : directLiTexts ul = (directLis ul).map getTextStrip := by
    unfold directLiTexts directLis
    rw [List.filter_eq_self.mpr]
    intro t ht
    rcases List.mem_map.mp ht with ⟨li, hli, rfl⟩
    simpa using h6 li hli
  have hne : (directLis ul).map getTextStrip ≠ [] := by
    simpa using h5
  constructor
  · simp only [get_main_events, h1, h2, hfind, htexts]
    simp [List.isEmpty_iff, hne]
  · exact List.length_map _ _

/-- Witness for the amended C3 on a concrete document: two direct items
give exactly two strings, with the nested text folded into the first. -/
theorem main_events_direct_item_count_witness : get_main_events wdocC3 = some ["xy", "z"] := by
  have h := main_events_direct_item_count wdocC3 [0, 0] [0] wulC3 (by decide) (by decide)
    rfl rfl (by exact List.cons_ne_nil _ _) (by decide)
  rw [h.1]
  decide

/-- Claim C4: a summary section whose sibling walk collects no text yields
none, exactly like a missing section, and the caller substitutes the
placeholder strings into fields 3 and 5 of the assembled block when the
extractions return none. -/
theorem empty_section_gives_placeholder (root : Node) (unquote : String → String)
    (url : String) :
    (∀ p q, findSpanPath summaryAnchorId root = some p →
        nearestH2Path root p = some q → summaryWalkTexts root q = [] →
        get_summary_section root = none) ∧
    (get_summary_section root = none →
      (episodeFields unquote url root)[3]? = some "No summary found.") ∧
    (get_main_events root = none →
      (episodeFields unquote url root)[5]? = some "No main events found.") := by
  refine ⟨?_, ?_, ?_⟩
  · intro p q hp hq hw
    simp [get_summary_section, hp, hq, hw]
  · intro h
    simp [episodeFields, summaryField, h]
  · intro h
    simp [episodeFields, eventsField, h]

/-- Witness for C4 on a concrete document whose summary section holds only
a whitespace-only paragraph and which has no main-events section: both
placeholders appear in the assembled fields. -/
theorem empty_section_gives_placeholder_witness :
    get_summary_section wdocC4 = none ∧
    (episodeFields id "u" wdocC4)[3]? = some "No summary found." ∧
    (episodeFields id "u" wdocC4)[5]? = some "No main events found." := by
  have h := empty_section_gives_placeholder wdocC4 id "u"
  exact ⟨h.1 [0, 0] [0] (by decide) (by decide) (by decide),
    h.2.1 (h.1 [0, 0] [0] (by decide) (by decide) (by decide)),
    h.2.2 (by decide)⟩

/-- Claim C5: when the anchor span is absent, or it has no enclosing h2
ancestor, each extractor returns none (and, being a total function, never
raises). -/
theorem missing_anchor_not_found (root : Node) :
    ((findSpanPath summaryAnchorId root = none ∨
        ∃ p, findSpanPath summaryAnchorId root = some p ∧ nearestH2Path root p = none) →
      get_summary_section root = none) ∧
    ((findSpanPath eventsAnchorId root = none ∨
        ∃ p, findSpanPath eventsAnchorId root = some p ∧ nearestH2Path root p = none) →
      get_main_events root = none) := by
  constructor
  · rintro (h | ⟨p, hp, hq⟩)
    · simp [get_summary_section, h]
    · simp [get_summary_section, hp, hq]
  · rintro (h | ⟨p, hp, hq⟩)
    · simp [get_main_events, h]
    · simp [get_main_events, hp, hq]

/-- Witness for C5 on a concrete document without either anchor. -/
theorem missing_anchor_not_found_witness :
    get_summary_section wdocC5 = none ∧ get_main_events wdocC5 = none :=
  ⟨(missing_anchor_not_found wdocC5).1 (Or.inl (by decide)),
    (missing_anchor_not_found wdocC5).2 (Or.inl (by decide))⟩

/-- Claim C6: the batch partition is deterministic and exhaustive —
concatenating the batches reproduces the URL list with no gaps or
duplicates, there are ceil(L / 20) batches, every batch but the last has
size 20, the last has size L mod 20 when that is non-zero (20 otherwise),
each batch is the contiguous slice at its index range, and there is
exactly one output file name per batch. -/
theorem batch_partition_exhaustive (season : String) (urls : List String) :
    (batchList urls).flatten = urls ∧
    (batchList urls).length = (urls.length + 19) / 20 ∧
    (∀ i, i + 1 < (batchList urls).length →
      ((batchList urls)[i]?).map List.length = some 20) ∧
    (urls ≠ [] →
      ((batchList urls)[(batchList urls).length - 1]?).map List.length =
        some (if urls.length % 20 = 0 then 20 else urls.length % 20)) ∧
    (∀ i, i < (batchList urls).length →
      (batchList urls)[i]? = some (pySlice urls (20 * i) (min (20 * i + 20) urls.length))) ∧
    (batchFiles season urls).length = (batchList urls).length := by
  have hform : batchList urls = (List.range ((urls.length + 19) / 20)).map
      (fun i => pySlice urls (20 * i) (min (20 * i + 20) urls.length)) := by
    unfold batchList rangeStep20 BATCH_SIZE
    rw [List.map_map]
    rfl
  have hlen : (batchList urls).length = (urls.length + 19) / 20 := by
    rw [hform, List.length_map, List.length_range]
  have hget : ∀ i, i < (urls.length + 19) / 20 →
      (batchList urls)[i]? = some (pySlice urls (20 * i) (min (20 * i + 20) urls.length)) := by
    intro i hi
    rw [hform, List.getElem?_map, List.getElem?_range hi]
    rfl
  have hblen : ∀ i, i < (urls.length + 19) / 20 →
      ((batchList urls)[i]?).map List.length = some (min 20 (urls.length - 20 * i)) := by
    intro i hi
    rw [hget i hi]
    simp [pySlice]
    omega
  refine ⟨?_, hlen, ?_, ?_, fun i hi => hget i (by rwa [hlen] at hi), ?_⟩
  · rw [hform]
    exact batch_join_aux _ urls rfl
  · intro i hi
    rw [hlen] at hi
    rw [hblen i (by omega)]
    congr 1
    omega
  · intro hne
    have hpos : 0 < urls.length := List.length_pos.mpr hne
    rw [hlen]
    rw [hblen ((urls.length + 19) / 20 - 1) (by omega)]
    congr 1
    rcases Nat.eq_zero_or_pos (urls.length % 20) with h0 | h0
    · rw [if_pos h0]
      omega
    · rw [if_neg (by omega)]
      omega
  · unfold batchFiles
    rw [hlen, List.length_map]
    unfold rangeStep20
    rw [List.length_map, List.length_range]

/-- Witness for C6 on a 45-URL list: the batches concatenate back to the
list, the first batch has 20 URLs and the last has 45 mod 20 = 5. -/
theorem batch_partition_exhaustive_witness :
    (batchList wurlsC6).flatten = wurlsC6 ∧
    ((batchList wurlsC6)[0]?).map List.length = some 20 ∧
    ((batchList wurlsC6)[(batchList wurlsC6).length - 1]?).map List.length = some 5 := by
  have h := batch_partition_exhaustive "s" wurlsC6
  exact ⟨h.1, (h.2.2.1 0 (by decide)),
    (h.2.2.2.1 (by decide)).trans (by decide)⟩

/-- Claim C7: processing a URL list yields one record per URL in the
original order; a URL whose fetch or parse fails contributes the error
placeholder carrying the failure reason, and the others contribute their
normally assembled content. -/
theorem per_url_failure_isolation (conv unquote : String → String)
    (fetch : String → Except String Node) (urls : List String) :
    (processUrls conv unquote fetch urls).length = urls.length ∧
    ∀ (i : Nat) (u : String), urls[i]? = some u →
      (processUrls conv unquote fetch urls)[i]? =
        some (match fetch u with
          | Except.ok doc => conv (assembleBlock unquote u doc)
          | Except.error e => "Error: " ++ e) := by
  constructor
  · rw [processUrls_eq_map]
    exact List.length_map _ _
  · intro i u hu
    rw [processUrls_eq_map, List.getElem?_map, hu]
    rfl

/-- Witness for C7 on three URLs whose second fetch fails: three records
remain, and the second is the error placeholder. -/
theorem per_url_failure_isolation_witness :
    (processUrls id id wfetchC7 ["u1", "u2", "u3"]).length = 3 ∧
    (processUrls id id wfetchC7 ["u1", "u2", "u3"])[1]? = some "Error: boom" := by
  have h := per_url_failure_isolation id id wfetchC7 ["u1", "u2", "u3"]
  refine ⟨h.1, ?_⟩
  rw [h.2 1 "u2" (by decide)]
  decide

/-- Claim C8: when the season directory or the urls.txt file is missing,
the run reports an error and produces no output file and no created
directory. -/
theorem missing_input_aborts_without_output (season : String) (sd uf : Bool)
    (urls : List String) (h : sd = false ∨ uf = false) :
    (mainRun season sd uf urls).outputFiles = [] ∧
    (mainRun season sd uf urls).createdDirs = [] ∧
    (mainRun season sd uf urls).errorMsg.isSome = true := by
  rcases h with h | h
  · subst h
    simp [mainRun]
  · subst h
    cases sd <;> simp [mainRun]

/-- Witness for C8 with a missing season directory. -/
theorem missing_input_aborts_without_output_witness :
    (mainRun "1997" false true ["u"]).outputFiles = [] ∧
    (mainRun "1997" false true ["u"]).createdDirs = [] ∧
    (mainRun "1997" false true ["u"]).errorMsg.isSome = true :=
  missing_input_aborts_without_output "1997" false true ["u"] (Or.inl rfl)

/-- Claim C9: when the decoded URL contains no episode marker, the label
parser returns none and the assembled block renders the literal text None
as its first field — the block starts with None followed by a newline, not
with an omitted or empty label. -/
theorem unmatched_url_label_renders_none (unquote : String → String) (url : String)
    (root : Node) (h : parse_episode_text unquote url = none) :
    (episodeFields unquote url root).head? = some "None" ∧
    ∃ r, assembleBlock unquote url root = "None\n" ++ r := by
  constructor
  · simp [episodeFields, labelText, h]
  · refine ⟨joinSep "\n" [get_first_paragraph_text root, "摘要",
      summaryField root, "主要事件：", eventsField root], ?_⟩
    simp only [assembleBlock, episodeFields, labelText, h]
    rfl

/-- Witness for C9 on a URL without an episode marker. -/
theorem unmatched_url_label_renders_none_witness :
    (episodeFields id "https://wiki/page" wdocC9).head? = some "None" ∧
    ∃ r, assembleBlock id "https://wiki/page" wdocC9 = "None\n" ++ r :=
  unmatched_url_label_renders_none id "https://wiki/page" wdocC9 (by decide)

/-- Claim C10: on a document containing no paragraph element at all, the
first-paragraph extractor itself returns the placeholder string — it is a
total function into String, unlike the other extractors whose not-found
sentinel is none with the placeholder substituted by the caller. -/
theorem first_paragraph_placeholder_total (root : Node) (h : hasPElem root = false) :
    get_first_paragraph_text root = "No first paragraph found" := by
  unfold get_first_paragraph_text
  rw [hasP_false_findP_none root h]

/-- Witness for C10 on a document without a paragraph. -/
theorem first_paragraph_placeholder_total_witness :
    get_first_paragraph_text wdocC10 = "No first paragraph found" :=
  first_paragraph_placeholder_total wdocC10 (by decide)
